import Mathlib

/-!
Verification of the core of `src/source-record-async.c` (the async source-record
OBS filter).  The C code is shallowly embedded: machine `uint64_t` arithmetic is
modelled on `Nat` with explicit `% 2^64`, the C conversion `(int)` of a
`uint64_t` is modelled as two's-complement wraparound to 32 bits (the behaviour
of gcc/clang), and each stateful C function becomes an explicit state-passing
Lean function.
-/

namespace SourceRecordAsync

/-- `2^64`, the modulus of `uint64_t` arithmetic. -/
def u64Mod : Nat := 2 ^ 64

/-- `2^32`, the modulus of 32-bit arithmetic. -/
def u32Mod : Nat := 2 ^ 32

/-- The C conversion `(int)x` applied to an unsigned 64-bit value `x`,
modelled as two's-complement wraparound to 32 bits. -/
def toInt32 (n : Nat) : Int :=
  let r := n % u32Mod
  if r < 2 ^ 31 then (r : Int) else (r : Int) - (u32Mod : Int)

/-- The C conversion of an `int` back to `uint64_t` (value mod `2^64`). -/
def intToU64 (i : Int) : Nat :=
  (i % (u64Mod : Int)).toNat

/-- Retiming state of `struct async_record` used by `send_video`:
`last_video_ns` (reset to 0 in `create_video_output`, line 112) and
`video_frame_interval` (line 113). -/
structure Retimer where
  last_video_ns : Nat
  video_frame_interval : Nat
deriving DecidableEq, Repr

/-- What `send_video` decides to do with one frame: drop it, or present it to
the sink for `count` ticks at emission timestamp `ts`
(`video_output_lock_frame(video_output, &frame, count, ts)`). -/
inductive SendResult where
  | drop : SendResult
  | present (count : Nat) (ts : Nat) : SendResult
deriving DecidableEq, Repr

/-- The tick count of a `SendResult`, if the frame is presented. -/
def SendResult.tickCount : SendResult → Option Nat
  | .drop => none
  | .present c _ => some c

/-- The retiming core of `send_video` (source-record-async.c lines 220-245):

```
int count;
uint64_t ts = frame->timestamp;
if (!s->last_video_ns) {
    count = 1;
    s->last_video_ns = ts;
} else {
    count = (int)((ts - s->last_video_ns) / s->video_frame_interval);
    s->last_video_ns += count * s->video_frame_interval;
    ts = s->last_video_ns;
    if (count <= 0) { /* drop */ return; }
}
/* present for count ticks at timestamp ts */
```

All `uint64_t` operations are taken mod `2^64`; the narrowing cast of the
quotient to `int` is `toInt32`; `count * s->video_frame_interval` converts
`count` back to `uint64_t` (`intToU64`).  The sink-availability check and the
geometry-mismatch logging that precede this block do not touch the retiming
state, and `video_output_lock_frame` failure happens after the state update,
so the state transition below is exact. -/
def send_video_step (s : Retimer) (timestamp : Nat) : Retimer × SendResult :=
  if s.last_video_ns = 0 then
    ({ s with last_video_ns := timestamp % u64Mod }, .present 1 (timestamp % u64Mod))
  else
    let diff := (timestamp % u64Mod + u64Mod - s.last_video_ns) % u64Mod
    let count := toInt32 (diff / s.video_frame_interval)
    let last' := (s.last_video_ns + intToU64 count * s.video_frame_interval) % u64Mod
    if count ≤ 0 then ({ s with last_video_ns := last' }, .drop)
    else ({ s with last_video_ns := last' }, .present count.toNat last')

/-- The first-frame branch of `send_video` (lines 222-225) in isolation. -/
def first_frame_step (s : Retimer) (timestamp : Nat) : Retimer × SendResult :=
  ({ s with last_video_ns := timestamp % u64Mod }, .present 1 (timestamp % u64Mod))

/-- The floor-division branch of `send_video` (lines 226-236) in isolation. -/
def floor_rule_step (s : Retimer) (timestamp : Nat) : Retimer × SendResult :=
  let diff := (timestamp % u64Mod + u64Mod - s.last_video_ns) % u64Mod
  let count := toInt32 (diff / s.video_frame_interval)
  let last' := (s.last_video_ns + intToU64 count * s.video_frame_interval) % u64Mod
  if count ≤ 0 then ({ s with last_video_ns := last' }, .drop)
  else ({ s with last_video_ns := last' }, .present count.toNat last')

/-- Results of feeding a list of frame timestamps through `send_video`
(one session: `thread_main_loop` pops frames in FIFO order and calls
`send_video` on each). -/
def session_results : Retimer → List Nat → List SendResult
  | _, [] => []
  | s, t :: ts =>
    let (s', r) := send_video_step s t
    r :: session_results s' ts

/-- The emission timestamps of the presented frames of a session, in order. -/
def session_emissions : Retimer → List Nat → List Nat
  | _, [] => []
  | s, t :: ts =>
    match send_video_step s t with
    | (s', .drop) => session_emissions s' ts
    | (s', .present _ e) => e :: session_emissions s' ts

/-- The retimer state after feeding a list of frame timestamps through
`send_video` (`thread_main_loop` keeps the state across frames). -/
def run_state (s : Retimer) (l : List Nat) : Retimer :=
  l.foldl (fun s t => (send_video_step s t).1) s

/-- Claim C1, formalized from the spec's words (for comparison against the
code): for a non-first frame, `count` is the mathematical floor of
`(frame.timestamp - last-emitted-ns) / tick-period-ns`, `last-emitted-ns` is
advanced by `count * tick-period-ns`, the frame is dropped when `count <= 0`
and presented for `count` ticks at the advanced value when `count >= 1`. -/
def retimeClaimC1 (s : Retimer) (t : Nat) : Prop :=
  ((send_video_step s t).1.last_video_ns : Int)
      = (s.last_video_ns : Int)
        + Int.fdiv ((t : Int) - (s.last_video_ns : Int)) (s.video_frame_interval : Int)
          * (s.video_frame_interval : Int)
  ∧ (Int.fdiv ((t : Int) - (s.last_video_ns : Int)) (s.video_frame_interval : Int) ≤ 0 →
      (send_video_step s t).2 = .drop)
  ∧ (1 ≤ Int.fdiv ((t : Int) - (s.last_video_ns : Int)) (s.video_frame_interval : Int) →
      (send_video_step s t).2 =
        .present (Int.fdiv ((t : Int) - (s.last_video_ns : Int))
            (s.video_frame_interval : Int)).toNat
          (send_video_step s t).1.last_video_ns)

/-- Helper: on an in-order frame (`last_video_ns ≤ t`) whose tick quotient fits
in 31 bits, the `uint64_t` subtraction does not wrap and the `(int)` cast is
lossless, so `send_video_step` computes the plain natural floor quotient. -/
lemma send_video_step_eq (s : Retimer) (t : Nat)
    (hlast : s.last_video_ns ≠ 0) (hI : 0 < s.video_frame_interval)
    (hle : s.last_video_ns ≤ t) (ht : t < u64Mod)
    (hq : (t - s.last_video_ns) / s.video_frame_interval < 2 ^ 31) :
    send_video_step s t =
      ({ s with last_video_ns := s.last_video_ns +
          (t - s.last_video_ns) / s.video_frame_interval * s.video_frame_interval },
       if (t - s.last_video_ns) / s.video_frame_interval = 0 then .drop
       else .present ((t - s.last_video_ns) / s.video_frame_interval)
         (s.last_video_ns +
           (t - s.last_video_ns) / s.video_frame_interval * s.video_frame_interval)) := by
  obtain ⟨last, I⟩ := s
  simp only [ne_eq] at hlast
  dsimp only at hle hq ⊢
  set q : Nat := (t - last) / I with hqdef
  have hu64 : (0:Nat) < u64Mod := by norm_num [u64Mod]
  have hdiff : (t % u64Mod + u64Mod - last) % u64Mod = t - last := by
    rw [Nat.mod_eq_of_lt ht]
    have h1 : t + u64Mod - last = (t - last) + u64Mod := by omega
    rw [h1, Nat.add_mod_right, Nat.mod_eq_of_lt (by omega)]
  have hq32 : q % u32Mod = q := by
    have : q < u32Mod := lt_trans hq (by norm_num [u32Mod])
    exact Nat.mod_eq_of_lt this
  have hcast : toInt32 q = (q : Int) := by
    unfold toInt32
    rw [hq32]
    rw [if_pos (by exact_mod_cast hq)]
  have hback : intToU64 (q : Int) = q := by
    unfold intToU64
    have h1 : (q : Int) % (u64Mod : Int) = (q : Int) := by
      apply Int.emod_eq_of_lt (by positivity)
      have : q < u64Mod := by
        calc q < 2 ^ 31 := hq
        _ < u64Mod := by norm_num [u64Mod]
      exact_mod_cast this
    rw [h1, Int.toNat_natCast]
  have hmul : q * I ≤ t - last := Nat.div_mul_le_self _ _
  have hlt : last + q * I < u64Mod := by omega
  have hlast' : (last + intToU64 (toInt32 q) * I) % u64Mod = last + q * I := by
    rw [hcast, hback, Nat.mod_eq_of_lt hlt]
  unfold send_video_step
  rw [if_neg hlast]
  dsimp only
  rw [hdiff, ← hqdef, hlast', hcast]
  by_cases h0 : q = 0
  · rw [if_pos (by simp [h0]), if_pos h0]
  · rw [if_neg (by omega), if_neg h0]
    simp

/-- C1 counterexample: the claim's floor rule fails on a frame whose timestamp
is older than `last_video_ns`.  At `last_video_ns = 20`, interval `10`,
timestamp `0`, the claim's `count = floor((0-20)/10) = -2` demands the new
`last-emitted-ns` to be `20 + (-2)*10 = 0`, but the code's `uint64_t`
subtraction wraps (`0 - 20 = 2^64 - 20`) and, after the `(int)` cast of the
quotient, leaves `last_video_ns = 18446744056529682426`. -/
theorem c1_counterexample : ¬ retimeClaimC1 ⟨20, 10⟩ 0 := by
  unfold retimeClaimC1
  decide

/-- C1 (amended): for every non-first frame (`last_video_ns ≠ 0`) whose
timestamp is at least `last_video_ns` and whose tick quotient is below `2^31`,
`send_video` computes `count` equal to the mathematical floor of
`(timestamp - last_video_ns) / interval`, advances `last_video_ns` by
`count * interval`, uses the advanced value as the emission timestamp, drops
the frame when `count = 0` and presents it for `count` ticks when
`count ≥ 1`. -/
theorem c1_floor_division (s : Retimer) (t : Nat)
    (hlast : s.last_video_ns ≠ 0) (hI : 0 < s.video_frame_interval)
    (hle : s.last_video_ns ≤ t) (ht : t < u64Mod)
    (hq : (t - s.last_video_ns) / s.video_frame_interval < 2 ^ 31) :
    Int.fdiv ((t : Int) - (s.last_video_ns : Int)) (s.video_frame_interval : Int)
        = ((t - s.last_video_ns) / s.video_frame_interval : Nat)
    ∧ send_video_step s t =
      ({ s with last_video_ns := s.last_video_ns +
          (t - s.last_video_ns) / s.video_frame_interval * s.video_frame_interval },
       if (t - s.last_video_ns) / s.video_frame_interval = 0 then .drop
       else .present ((t - s.last_video_ns) / s.video_frame_interval)
         (s.last_video_ns +
           (t - s.last_video_ns) / s.video_frame_interval * s.video_frame_interval)) := by
  constructor
  · have hsub : (t : Int) - (s.last_video_ns : Int) = ((t - s.last_video_ns : Nat) : Int) := by
      omega
    rw [hsub, Int.ofNat_fdiv]
  · exact send_video_step_eq s t hlast hI hle ht hq

/-- Witness for `c1_floor_division` at `last_video_ns = 100`, interval `10`,
timestamp `125`: quotient `2`, presented for 2 ticks at emission `120`. -/
theorem c1_floor_division_witness :
    Int.fdiv ((125 : Int) - (100 : Int)) (10 : Int) = ((125 - 100) / 10 : Nat)
    ∧ send_video_step ⟨100, 10⟩ 125 =
      (⟨100 + (125 - 100) / 10 * 10, 10⟩,
       if (125 - 100) / 10 = 0 then .drop
       else .present ((125 - 100) / 10) (100 + (125 - 100) / 10 * 10)) :=
  c1_floor_division ⟨100, 10⟩ 125 (by decide) (by decide) (by decide)
    (by norm_num [u64Mod]) (by decide)

/-- C3 counterexample: when the first frame of a session has timestamp `0`,
`send_video` stores `last_video_ns = 0`, which is also the "no frame yet"
sentinel, so the NEXT frame is again handled by the first-frame rule and not by
the floor-division rule.  Concretely, with interval `10`, after a first frame at
timestamp `0` the frame at timestamp `5` is presented for 1 tick (first-frame
rule); the floor-division rule would have dropped it (`floor(5/10) = 0`). -/
theorem c3_counterexample :
    send_video_step (send_video_step ⟨0, 10⟩ 0).1 5
        = first_frame_step (send_video_step ⟨0, 10⟩ 0).1 5
    ∧ send_video_step (send_video_step ⟨0, 10⟩ 0).1 5
        ≠ floor_rule_step (send_video_step ⟨0, 10⟩ 0).1 5 := by
  decide

/-- A frame processed while `last_video_ns` is nonzero goes through the
floor-division (else) branch of `send_video`, never the first-frame branch. -/
lemma send_video_step_of_ne_zero (s : Retimer) (t : Nat) (h : s.last_video_ns ≠ 0) :
    send_video_step s t = floor_rule_step s t := by
  unfold send_video_step floor_rule_step
  rw [if_neg h]

/-- Helper invariant for C3: starting from a nonzero `last_video_ns` and
feeding in-order frames whose gaps stay below `2^31` ticks, `last_video_ns`
never returns to the `0` sentinel.  (Without the gap bound a wraparound drop
can reset it to exactly `0` mid-session.) -/
lemma run_state_ne_zero_aux (I : Nat) (hI : 0 < I) :
    ∀ (pre : List Nat) (last prev t : Nat) (post : List Nat),
      last ≠ 0 → last ≤ prev → prev < u64Mod → prev - last < I →
      (∀ x ∈ pre ++ t :: post, x < u64Mod) →
      List.Chain' (fun a b => a < b ∧ b - a ≤ (2 ^ 31 - 1) * I)
        (prev :: (pre ++ t :: post)) →
      (run_state ⟨last, I⟩ pre).last_video_ns ≠ 0 := by
  intro pre
  induction pre with
  | nil =>
    intro last prev t post h0 _ _ _ _ _
    simpa [run_state] using h0
  | cons p pre' ih =>
    intro last prev t post h0 hlp hprev hpl hbound hchain
    rw [List.cons_append, List.chain'_cons] at hchain
    obtain ⟨⟨hpp, hgap⟩, hchain'⟩ := hchain
    have hbp : p < u64Mod := hbound p (by simp)
    have hlt : last < p := lt_of_le_of_lt hlp hpp
    have e31 : (2 : Nat) ^ 31 = 2147483648 := by norm_num
    have hql : (p - last) / I < 2 ^ 31 := by
      rw [Nat.div_lt_iff_lt_mul hI, e31]
      rw [e31] at hgap
      omega
    have hstep := send_video_step_eq ⟨last, I⟩ p h0 hI hlt.le hbp hql
    have hrun : run_state ⟨last, I⟩ (p :: pre')
        = run_state ⟨last + (p - last) / I * I, I⟩ pre' := by
      simp only [run_state, List.foldl_cons]
      rw [hstep]
    rw [hrun]
    have hmulle : (p - last) / I * I ≤ p - last := Nat.div_mul_le_self _ _
    obtain ⟨r, hr, hrepr⟩ : ∃ r, r < I ∧ p - last = (p - last) / I * I + r :=
      ⟨(p - last) % I, Nat.mod_lt _ hI, by
        rw [Nat.mul_comm]
        exact (Nat.div_add_mod _ _).symm⟩
    refine ih (last + (p - last) / I * I) p t post (by omega) (by omega) hbp
      (by omega) (fun x hx => hbound x ?_) hchain'
    rw [List.cons_append]
    exact List.mem_cons_of_mem _ hx

/-- C3 (amended): for the first frame of a session (`last_video_ns = 0`) the
engine emits exactly 1 tick at the frame's own timestamp and sets
`last_video_ns` to that timestamp; provided that timestamp is nonzero and the
session's frames arrive with strictly increasing timestamps whose consecutive
gaps are at most `(2^31 - 1)` tick periods, `last_video_ns` never returns to
the `0` sentinel, so every later frame of the session is handled by the
floor-division rule, not the first-frame rule.  (Without the gap bound a
wraparound drop — e.g. `last = 20`, interval `10`, timestamp `42949672960`
giving `count = -2` — resets `last_video_ns` to `0` mid-session, after which
the first-frame rule applies again.) -/
theorem c3_first_frame_rule (s : Retimer) (t0 : Nat) (rest : List Nat)
    (h0 : s.last_video_ns = 0) (hI : 0 < s.video_frame_interval) (ht0 : t0 ≠ 0)
    (hbound : ∀ x ∈ t0 :: rest, x < u64Mod)
    (hgaps : List.Chain'
      (fun a b => a < b ∧ b - a ≤ (2 ^ 31 - 1) * s.video_frame_interval)
      (t0 :: rest)) :
    send_video_step s t0 = ({ s with last_video_ns := t0 }, .present 1 t0)
    ∧ ∀ pre t post, rest = pre ++ t :: post →
        (run_state { s with last_video_ns := t0 } pre).last_video_ns ≠ 0
        ∧ send_video_step (run_state { s with last_video_ns := t0 } pre) t
            = floor_rule_step (run_state { s with last_video_ns := t0 } pre) t := by
  have hbt0 : t0 < u64Mod := hbound t0 (List.mem_cons_self _ _)
  constructor
  · unfold send_video_step
    rw [if_pos h0, Nat.mod_eq_of_lt hbt0]
  · intro pre t post hsplit
    subst hsplit
    have hA : ∀ x ∈ pre ++ t :: post, x < u64Mod :=
      fun x hx => hbound x (List.mem_cons_of_mem _ hx)
    have hne : (run_state { s with last_video_ns := t0 } pre).last_video_ns ≠ 0 :=
      run_state_ne_zero_aux s.video_frame_interval hI pre t0 t0 t post ht0 le_rfl
        hbt0 (by omega) hA hgaps
    exact ⟨hne, send_video_step_of_ne_zero _ t hne⟩

/-- Witness for `c3_first_frame_rule`: session `[7, 20, 35]` with interval
`10`: the first frame at `7` is presented once at `7`, and the third frame
(`pre = [20]`, `t = 35`) is processed in a state with nonzero
`last_video_ns`, through the floor-division branch. -/
theorem c3_first_frame_rule_witness :
    send_video_step ⟨0, 10⟩ 7 = (⟨7, 10⟩, .present 1 7)
    ∧ (run_state ⟨7, 10⟩ [20]).last_video_ns ≠ 0
    ∧ send_video_step (run_state ⟨7, 10⟩ [20]) 35
        = floor_rule_step (run_state ⟨7, 10⟩ [20]) 35 := by
  have H := c3_first_frame_rule ⟨0, 10⟩ 7 [20, 35] rfl (by decide) (by decide)
    (by intro x hx; fin_cases hx <;> norm_num [u64Mod])
    (by norm_num [List.chain'_cons])
  exact ⟨H.1, (H.2 [20] 35 [] rfl).1, (H.2 [20] 35 [] rfl).2⟩

/-- C4 counterexample: frames at `t = 0` and `t = 50000000` ns with tick period
`16666666` ns in a fresh session.  The claim expects the second frame to be
presented with tick count 3, but because the first frame's timestamp `0`
coincides with the `last_video_ns = 0` sentinel, the second frame is again
handled by the first-frame rule and is presented with tick count 1. -/
theorem c4_counterexample :
    SendResult.tickCount ((session_results ⟨0, 16666666⟩ [0, 50000000]).getD 1 .drop)
      ≠ some 3 := by
  decide

/-- C4 (amended): with a nonzero first timestamp the spec's scenario holds:
frames at `t = 1` and `t = 50000001` ns (50 ms apart) with tick period
`16666666` ns in a fresh session give tick counts `[1, 3]` — the second frame
is duplicated to cover the 2-tick gap, emitted at `1 + 3 * 16666666`. -/
theorem c4_gap_duplication :
    session_results ⟨0, 16666666⟩ [1, 50000001]
      = [.present 1 1, .present 3 49999999] := by
  decide

/-- C2 counterexample: a strictly increasing timestamp sequence whose emission
timestamps are NOT monotonically non-decreasing.  With interval `10` and a gap
of exactly `2^31` ticks, the quotient's `(int)` cast makes `count = -2^31`,
and `last_video_ns += count * interval` wraps `last_video_ns` down to `10`;
the following frame is then emitted at `20`, far below the first emission
`21474836490`. -/
theorem c2_counterexample :
    List.Chain' (· < ·) [21474836490, 42949672970, 42949672980]
    ∧ session_emissions ⟨0, 10⟩ [21474836490, 42949672970, 42949672980]
        = [21474836490, 20]
    ∧ ¬ List.Chain' (· ≤ ·)
        (session_emissions ⟨0, 10⟩ [21474836490, 42949672970, 42949672980]) := by
  have he : session_emissions ⟨0, 10⟩ [21474836490, 42949672970, 42949672980]
      = [21474836490, 20] := by decide
  refine ⟨by norm_num [List.chain'_cons], he, ?_⟩
  rw [he]
  norm_num [List.chain'_cons]

/-- Helper invariant for C2: running `send_video` over a session tail keeps the
emission timestamps chained above the current `last_video_ns`, as long as each
frame is newer than the previous one and gaps stay below `2^31` ticks. -/
lemma session_emissions_mono_aux (I : Nat) (hI : 0 < I) :
    ∀ (l : List Nat) (last prev : Nat),
      last ≤ prev → prev < u64Mod →
      (last ≠ 0 → prev - last < I) →
      (∀ t ∈ l, t < u64Mod) →
      List.Chain' (fun a b => a < b ∧ b - a ≤ (2 ^ 31 - 1) * I) (prev :: l) →
      List.Chain' (· ≤ ·) (last :: session_emissions ⟨last, I⟩ l) := by
  intro l
  induction l with
  | nil =>
    intro last prev _ _ _ _ _
    simp [session_emissions]
  | cons t ts ih =>
    intro last prev hlp hprev hinv hbound hchain
    have hbt : t < u64Mod := hbound t (List.mem_cons_self _ _)
    have hbts : ∀ x ∈ ts, x < u64Mod := fun x hx => hbound x (List.mem_cons_of_mem _ hx)
    rw [List.chain'_cons] at hchain
    obtain ⟨⟨hpt, hgap⟩, hchain'⟩ := hchain
    by_cases h0 : last = 0
    · subst h0
      have hstep : send_video_step ⟨0, I⟩ t = (⟨t, I⟩, .present 1 t) := by
        unfold send_video_step
        simp [Nat.mod_eq_of_lt hbt]
      have hemit : session_emissions ⟨0, I⟩ (t :: ts)
          = t :: session_emissions ⟨t, I⟩ ts := by
        simp only [session_emissions, hstep]
      rw [hemit, List.chain'_cons]
      exact ⟨Nat.zero_le _,
        ih t t le_rfl hbt (fun _ => by simpa using hI) hbts hchain'⟩
    · have hlt : last < t := lt_of_le_of_lt hlp hpt
      have e31 : (2 : Nat) ^ 31 = 2147483648 := by norm_num
      have hql : (t - last) / I < 2 ^ 31 := by
        rw [Nat.div_lt_iff_lt_mul hI, e31]
        have h2 : prev - last < I := hinv h0
        rw [e31] at hgap
        omega
      have hstep := send_video_step_eq ⟨last, I⟩ t h0 hI hlt.le hbt hql
      have hmulle : (t - last) / I * I ≤ t - last := Nat.div_mul_le_self _ _
      by_cases hq0 : (t - last) / I = 0
      · have hstep' : send_video_step ⟨last, I⟩ t = (⟨last, I⟩, .drop) := by
          rw [hstep, if_pos hq0]
          simp [hq0]
        have hemit : session_emissions ⟨last, I⟩ (t :: ts)
            = session_emissions ⟨last, I⟩ ts := by
          simp only [session_emissions, hstep']
        rw [hemit]
        refine ih last t hlt.le hbt (fun _ => ?_) hbts hchain'
        exact (Nat.div_eq_zero_iff hI).mp hq0
      · have hstep' : send_video_step ⟨last, I⟩ t
            = (⟨last + (t - last) / I * I, I⟩,
               .present ((t - last) / I) (last + (t - last) / I * I)) := by
          rw [hstep, if_neg hq0]
        have hemit : session_emissions ⟨last, I⟩ (t :: ts)
            = (last + (t - last) / I * I)
              :: session_emissions ⟨last + (t - last) / I * I, I⟩ ts := by
          simp only [session_emissions, hstep']
        rw [hemit, List.chain'_cons]
        refine ⟨Nat.le_add_right _ _, ?_⟩
        obtain ⟨r, hr, hrepr⟩ : ∃ r, r < I ∧ t - last = (t - last) / I * I + r :=
          ⟨(t - last) % I, Nat.mod_lt _ hI, by
            rw [Nat.mul_comm]
            exact (Nat.div_add_mod _ _).symm⟩
        have hle2 : last + (t - last) / I * I ≤ t := by omega
        refine ih (last + (t - last) / I * I) t hle2 hbt (fun _ => ?_) hbts hchain'
        omega

/-- C2 (amended): for every sequence of frames with strictly increasing
timestamps whose consecutive gaps are at most `(2^31 - 1)` tick periods,
processed within one session (which starts with `last_video_ns = 0`,
set by `create_video_output`), the emission timestamps produced by
`send_video` are monotonically non-decreasing. -/
theorem c2_emission_monotone (I : Nat) (l : List Nat) (hI : 0 < I)
    (hbound : ∀ t ∈ l, t < u64Mod)
    (hgaps : List.Chain' (fun a b => a < b ∧ b - a ≤ (2 ^ 31 - 1) * I) l) :
    List.Chain' (· ≤ ·) (session_emissions ⟨0, I⟩ l) := by
  cases l with
  | nil => simp [session_emissions]
  | cons t ts =>
    have hbt : t < u64Mod := hbound t (List.mem_cons_self _ _)
    have hstep : send_video_step ⟨0, I⟩ t = (⟨t, I⟩, .present 1 t) := by
      unfold send_video_step
      simp [Nat.mod_eq_of_lt hbt]
    have hemit : session_emissions ⟨0, I⟩ (t :: ts)
        = t :: session_emissions ⟨t, I⟩ ts := by
      simp only [session_emissions, hstep]
    rw [hemit]
    exact session_emissions_mono_aux I hI ts t t le_rfl hbt
      (fun _ => by simpa using hI)
      (fun x hx => hbound x (List.mem_cons_of_mem _ hx)) hgaps

/-- Witness for `c2_emission_monotone`: frames at `5, 25, 30` with interval
`10` give emissions `[5, 25]` (the frame at `30` is dropped), a
non-decreasing sequence. -/
theorem c2_emission_monotone_witness :
    (0 : Nat) < 10
    ∧ List.Chain' (· ≤ ·) (session_emissions ⟨0, 10⟩ [5, 25, 30]) :=
  ⟨by decide,
   c2_emission_monotone 10 [5, 25, 30] (by decide)
     (by intro t ht; fin_cases ht <;> norm_num [u64Mod])
     (by norm_num [List.chain'_cons])⟩

/-! ## Lifecycle Controller: Phase B (`thread_start_loop`) -/

/-- The control flags of `struct async_record` read and written by
`thread_start_loop` (the Retimer fields are modelled separately). -/
structure StartState where
  record : Bool
  failed : Bool
  close : Bool
  need_restart : Bool
  output_stopped : Bool
  output : Option Unit
deriving DecidableEq, Repr

/-- Outcomes of the external collaborators called during Phase B:
`peek_first_frame` (peek_ok), `video_output_open` (sink_open_ok),
`obs_output_create` (output_create_ok), `obs_output_start`
(output_start_ok). -/
structure StartOutcomes where
  peek_ok : Bool
  sink_open_ok : Bool
  output_create_ok : Bool
  output_start_ok : Bool
deriving DecidableEq, Repr

/-- What one iteration of the `thread_start_loop` `for (;;)` does next:
`exitThread` is `return false`, `waitCond` is `pthread_cond_wait` followed by
re-checking, `retryPhaseA` is `continue` back to the top of the loop (Phase A),
`sessionStarted` is `return true`. -/
inductive StartStep where
  | exitThread : StartStep
  | waitCond : StartStep
  | retryPhaseA : StartStep
  | sessionStarted : StartStep
deriving DecidableEq, Repr

/-- One iteration of `thread_start_loop` (lines 134-198).  Effects in source
order: the close / not-record-or-failed gates (Phase A); `need_restart`
cleared; `create_video_output` (peek + sink open; on failure just `continue`,
lines 159-163); `obs_output_create` (on failure `failed = true` and
`continue`, lines 174-179); `output_stopped = false` and the stop-signal
registration (lines 181-183); `obs_output_start` (on failure release the
output, `failed = true`, `continue`, lines 188-194); on success store the
output handle and return. -/
def thread_start_iter (s : StartState) (env : StartOutcomes) : StartState × StartStep :=
  if s.close then (s, .exitThread)
  else if !s.record || s.failed then (s, .waitCond)
  else
    let s1 := { s with need_restart := false }
    if !(env.peek_ok && env.sink_open_ok) then (s1, .retryPhaseA)
    else if !env.output_create_ok then ({ s1 with failed := true }, .retryPhaseA)
    else
      let s2 := { s1 with output_stopped := false }
      if !env.output_start_ok then ({ s2 with failed := true }, .retryPhaseA)
      else ({ s2 with output := some () }, .sessionStarted)

/-- C5 counterexample: when `peek_first_frame` returns nothing (likewise when
the sink fails to open), `thread_start_loop` loops back to Phase A but does
NOT set the failure flag — contradicting the claim that every Phase B failure
sets `failed`.  Started from `record = true`, `failed = false`,
`close = false` with the peek failing. -/
theorem c5_counterexample :
    (thread_start_iter ⟨true, false, false, false, false, none⟩
        ⟨false, true, true, true⟩).2 = .retryPhaseA
    ∧ (thread_start_iter ⟨true, false, false, false, false, none⟩
        ⟨false, true, true, true⟩).1.failed ≠ true := by
  decide

/-- C5 (amended): starting from the Phase A gate (`close = false`,
`record = true`, `failed = false`): a failure of the first-frame peek or of the
sink open makes the controller loop back to Phase A with the failure flag
still clear, while a failure of output creation or of output start makes it
loop back to Phase A with the failure flag set. -/
theorem c5_start_failure_handling (s : StartState) (env : StartOutcomes)
    (hc : s.close = false) (hr : s.record = true) (hf : s.failed = false) :
    ((env.peek_ok = false ∨ env.sink_open_ok = false) →
      (thread_start_iter s env).2 = .retryPhaseA
      ∧ (thread_start_iter s env).1.failed = false)
    ∧ (env.peek_ok = true → env.sink_open_ok = true →
        (env.output_create_ok = false ∨ env.output_start_ok = false) →
      (thread_start_iter s env).2 = .retryPhaseA
      ∧ (thread_start_iter s env).1.failed = true) := by
  obtain ⟨p, sk, oc, os⟩ := env
  cases p <;> cases sk <;> cases oc <;> cases os <;>
    simp [thread_start_iter, hc, hr, hf]

/-- Witness for `c5_start_failure_handling`: `obs_output_create` failing makes
the controller retry Phase A with `failed = true`. -/
theorem c5_start_failure_handling_witness :
    (thread_start_iter ⟨true, false, false, false, false, none⟩
        ⟨true, true, false, true⟩).2 = .retryPhaseA
    ∧ (thread_start_iter ⟨true, false, false, false, false, none⟩
        ⟨true, true, false, true⟩).1.failed = true :=
  (c5_start_failure_handling ⟨true, false, false, false, false, none⟩
      ⟨true, true, false, true⟩ rfl rfl rfl).2 rfl rfl (Or.inl rfl)

/-! ## Filter Adapter: `async_record_update` -/

/-- The fields of `struct async_record` touched by `async_record_update`.
The three string properties start as NULL (`bzalloc`), hence `Option`. -/
structure UpdateState where
  directory : Option String
  filename_format : Option String
  extension : Option String
  overwrite_timestamp : Bool
  failed : Bool
  need_restart : Bool
deriving DecidableEq, Repr

/-- The settings bundle read by `async_record_update`
(`obs_data_get_string` / `obs_data_get_bool` never return NULL). -/
structure UpdateSettings where
  directory : String
  filename_format : String
  extension : String
  overwrite_timestamp : Bool
deriving DecidableEq, Repr

/-- `get_string` (lines 405-414): replaces `*dst` when it is NULL or differs
from the incoming value, returning whether it changed. -/
def get_string (dst : Option String) (value : String) : Option String × Bool :=
  if dst = some value then (dst, false) else (some value, true)

/-- `async_record_update` (lines 416-436): merge the three string settings
(each via `get_string`), always take `overwrite_timestamp`, and only if one of
the strings changed, clear `failed` and set `need_restart` (and signal the
condition variable). -/
def async_record_update (s : UpdateState) (t : UpdateSettings) : UpdateState :=
  let d := get_string s.directory t.directory
  let f := get_string s.filename_format t.filename_format
  let e := get_string s.extension t.extension
  let changed := d.2 || f.2 || e.2
  { directory := d.1
    filename_format := f.1
    extension := e.1
    overwrite_timestamp := t.overwrite_timestamp
    failed := if changed then false else s.failed
    need_restart := if changed then true else s.need_restart }

/-- C6 counterexample: an update call that changes none of directory, filename
template, or extension leaves a prior failure flag set — contradicting the
claim that EVERY call to update-settings clears it. -/
theorem c6_counterexample :
    ¬ ((async_record_update
        ⟨some "d", some "f", some "e", false, true, false⟩
        ⟨"d", "f", "e", false⟩).failed = false) := by
  decide

/-- C6 (amended): `async_record_update` clears the failure flag and sets the
restart-requested flag exactly when one of directory, filename template, or
extension changed; when none changed, both flags are left untouched (so a
prior failure keeps gating re-entry). -/
theorem c6_update_flags (s : UpdateState) (t : UpdateSettings) :
    (((get_string s.directory t.directory).2
        || (get_string s.filename_format t.filename_format).2
        || (get_string s.extension t.extension).2) = true →
      (async_record_update s t).failed = false
      ∧ (async_record_update s t).need_restart = true)
    ∧ (((get_string s.directory t.directory).2
        || (get_string s.filename_format t.filename_format).2
        || (get_string s.extension t.extension).2) = false →
      (async_record_update s t).failed = s.failed
      ∧ (async_record_update s t).need_restart = s.need_restart) := by
  constructor <;> intro h <;> simp [async_record_update, h]

/-- Witness for `c6_update_flags`: changing the directory clears `failed` and
requests a restart. -/
theorem c6_update_flags_witness :
    (async_record_update ⟨some "d", some "f", some "e", false, true, false⟩
        ⟨"d2", "f", "e", false⟩).failed = false
    ∧ (async_record_update ⟨some "d", some "f", some "e", false, true, false⟩
        ⟨"d2", "f", "e", false⟩).need_restart = true :=
  (c6_update_flags ⟨some "d", some "f", some "e", false, true, false⟩
      ⟨"d2", "f", "e", false⟩).1 (by decide)

/-! ## Frame Queue drain (`free_video_data`, `async_record_tick`, destroy) -/

/-- A queued `obs_source_frame`, reduced to its reference count (`frame->refs`,
a `long`), which is what the drain path manipulates. -/
structure QFrame where
  refs : Int
deriving DecidableEq, Repr

/-- The fate of one queued frame released by `free_video_data`: its
decremented reference count, and whether `obs_source_frame_destroy` was
called on it. -/
structure ReleasedFrame where
  refs : Int
  destroyed : Bool
deriving DecidableEq, Repr

/-- `free_video_data` (lines 348-360): pop every queued frame in order,
decrement its reference count (`os_atomic_dec_long(&frame->refs)`), and
destroy it when the count drops to 0 or below.  No frame is presented to the
sink here: the function never touches the video output. -/
def free_video_data : List QFrame → List ReleasedFrame
  | [] => []
  | f :: r => ⟨f.refs - 1, decide (f.refs - 1 ≤ 0)⟩ :: free_video_data r

/-- The fields of `struct async_record` read and written by
`async_record_tick` and by the queue-drain of `async_record_destroy` /
`async_record_remove`. -/
structure TickState where
  enabled : Bool
  record : Bool
  close : Bool
  video_frames : List QFrame
deriving DecidableEq, Repr

/-- `async_record_tick` (lines 462-475): when the host-desired `enabled`
differs from `record`, adopt it; only on a transition TO enabled is the stale
queue discarded via `free_video_data`.  Returns the new state and the list of
frames released. -/
def async_record_tick (s : TickState) : TickState × List ReleasedFrame :=
  if s.enabled ≠ s.record then
    if s.enabled then
      ({ s with record := s.enabled, video_frames := [] }, free_video_data s.video_frames)
    else
      ({ s with record := s.enabled }, [])
  else (s, [])

/-- The queue drain performed by `async_record_destroy` (lines 383-403, after
joining the worker thread) and by `async_record_remove` (lines 499-514):
`close` is set and every remaining queued frame is released via
`free_video_data`. -/
def async_record_destroy_drain (s : TickState) : TickState × List ReleasedFrame :=
  ({ s with close := true, video_frames := [] }, free_video_data s.video_frames)

/-- Every frame drained by `free_video_data` has its reference count
decremented by one and is destroyed exactly when the count reaches 0 or
below. -/
lemma free_video_data_eq_map (l : List QFrame) :
    free_video_data l = l.map (fun f => ⟨f.refs - 1, decide (f.refs - 1 ≤ 0)⟩) := by
  induction l with
  | nil => rfl
  | cons f r ih => simp [free_video_data, ih]

/-- C7 counterexample: on a DISABLE transition (`enabled = false`,
`record = true`) `async_record_tick` only clears `record`; the queued frame
survives in the queue, contradicting the claim that no queued frame survives
a disable transition (the queue is only drained on the next transition to
enabled, or at destroy/remove). -/
theorem c7_counterexample :
    ¬ ((async_record_tick ⟨false, true, false, [⟨2⟩]⟩).1.video_frames = []) := by
  decide

/-- C7 (amended): on forced shutdown (`async_record_destroy` /
`async_record_remove`) and on a transition TO enabled in `async_record_tick`,
every queued frame is removed and released without being presented — each
reference count is decremented, destroying the frame when it reaches 0 or
below; on a disable transition the queue is left untouched (its frames are
drained later, at re-enable or destroy). -/
theorem c7_queue_drain (s : TickState) :
    ((async_record_destroy_drain s).1.video_frames = []
      ∧ (async_record_destroy_drain s).2
          = s.video_frames.map (fun f => ⟨f.refs - 1, decide (f.refs - 1 ≤ 0)⟩))
    ∧ (s.enabled = true → s.record = false →
        (async_record_tick s).1.video_frames = []
        ∧ (async_record_tick s).2
            = s.video_frames.map (fun f => ⟨f.refs - 1, decide (f.refs - 1 ≤ 0)⟩))
    ∧ (s.enabled = false → s.record = true →
        (async_record_tick s).1.video_frames = s.video_frames
        ∧ (async_record_tick s).2 = []) := by
  refine ⟨⟨rfl, free_video_data_eq_map _⟩, ?_, ?_⟩
  · intro he hr
    simp [async_record_tick, he, hr, free_video_data_eq_map]
  · intro he hr
    simp [async_record_tick, he, hr]

/-- Witness for `c7_queue_drain`: a transition to enabled drains a two-frame
queue, decrementing each frame's reference count. -/
theorem c7_queue_drain_witness :
    (async_record_tick ⟨true, false, false, [⟨1⟩, ⟨3⟩]⟩).1.video_frames = []
    ∧ (async_record_tick ⟨true, false, false, [⟨1⟩, ⟨3⟩]⟩).2
        = ([⟨1⟩, ⟨3⟩] : List QFrame).map
            (fun f => ⟨f.refs - 1, decide (f.refs - 1 ≤ 0)⟩) :=
  (c7_queue_drain ⟨true, false, false, [⟨1⟩, ⟨3⟩]⟩).2.1 rfl rfl

/-! ## Output Session bridge: the pixel copy of `send_video` -/

/-- One `memcpy` issued by the copy section of `send_video`: which plane it
belongs to, the byte offsets into the destination (sink write slot) and the
source frame data, and the byte length. -/
structure CopyRow where
  plane : Nat
  dstOff : Nat
  srcOff : Nat
  len : Nat
deriving DecidableEq, Repr

/-- The pixel-copy section of `send_video` (lines 248-265) as the list of
`memcpy` operations it issues, given the per-plane source stride
(`frame->linesize`), destination stride (`output_frame.linesize`) and the
frame height.  The outer loop is literally `for (int i = 0; i < 1; i++)`:
only plane 0 is handled.  If the strides match, one bulk copy of
`output_frame.linesize[i] * frame->height` bytes; otherwise one copy per row
of `min` of the two strides, the destination advancing by its own stride and
the source by its own stride. -/
def send_video_copy (frame_ls out_ls : Nat → Nat) (height : Nat) : List CopyRow :=
  (List.range 1).flatMap (fun i =>
    if frame_ls i = out_ls i then
      [⟨i, 0, 0, out_ls i * height⟩]
    else
      (List.range height).map
        (fun y => ⟨i, y * out_ls i, y * frame_ls i, min (out_ls i) (frame_ls i)⟩))

/-- C8 (confirmed): if the first-plane strides are equal the whole plane is
copied in one bulk copy; otherwise exactly `height` row copies are issued,
each of the smaller of the two strides, so every write stays inside its
destination row and every read inside its source row; and every issued copy
belongs to plane 0. -/
theorem c8_copy_bounds (frame_ls out_ls : Nat → Nat) (height : Nat) :
    (frame_ls 0 = out_ls 0 →
      send_video_copy frame_ls out_ls height = [⟨0, 0, 0, out_ls 0 * height⟩])
    ∧ (frame_ls 0 ≠ out_ls 0 →
        (send_video_copy frame_ls out_ls height).length = height
        ∧ ∀ op ∈ send_video_copy frame_ls out_ls height,
            op.len = min (out_ls 0) (frame_ls 0)
            ∧ ∃ y, y < height ∧ op.dstOff = y * out_ls 0 ∧ op.srcOff = y * frame_ls 0
              ∧ op.dstOff + op.len ≤ y * out_ls 0 + out_ls 0
              ∧ op.srcOff + op.len ≤ y * frame_ls 0 + frame_ls 0)
    ∧ (∀ op ∈ send_video_copy frame_ls out_ls height, op.plane = 0) := by
  have hbind : send_video_copy frame_ls out_ls height =
      (if frame_ls 0 = out_ls 0 then
        [⟨0, 0, 0, out_ls 0 * height⟩]
      else
        (List.range height).map
          (fun y => ⟨0, y * out_ls 0, y * frame_ls 0, min (out_ls 0) (frame_ls 0)⟩)) := by
    simp [send_video_copy, List.range_succ]
  refine ⟨?_, ?_, ?_⟩
  · intro h
    rw [hbind, if_pos h]
  · intro h
    rw [hbind, if_neg h]
    refine ⟨by simp, ?_⟩
    intro op hop
    rw [List.mem_map] at hop
    obtain ⟨y, hy, rfl⟩ := hop
    rw [List.mem_range] at hy
    exact ⟨rfl, y, hy, rfl, rfl,
      Nat.add_le_add_left (Nat.min_le_left _ _) _,
      Nat.add_le_add_left (Nat.min_le_right _ _) _⟩
  · intro op hop
    rw [hbind] at hop
    by_cases h : frame_ls 0 = out_ls 0
    · rw [if_pos h] at hop
      simp at hop
      rw [hop]
    · rw [if_neg h] at hop
      rw [List.mem_map] at hop
      obtain ⟨y, _, rfl⟩ := hop
      rfl

/-- Witness for `c8_copy_bounds`: equal strides (64) over height 4 give one
bulk copy; strides 100 (source) and 120 (destination) over height 2 give one
row copy per row. -/
theorem c8_copy_bounds_witness :
    send_video_copy (fun _ => 64) (fun _ => 64) 4 = [⟨0, 0, 0, 64 * 4⟩]
    ∧ (send_video_copy (fun _ => 100) (fun _ => 120) 2).length = 2 :=
  ⟨(c8_copy_bounds (fun _ => 64) (fun _ => 64) 4).1 rfl,
   ((c8_copy_bounds (fun _ => 100) (fun _ => 120) 2).2.1 (by decide)).1⟩

/-! ## Session teardown (`thread_close_loop`) -/

/-- The fields of `struct async_record` read and written by
`thread_close_loop`: the output handle, the video sink handle, and the
asynchronous stop-notification flag. -/
structure CloseState where
  output : Option Unit
  video_output : Option Unit
  output_stopped : Bool
deriving DecidableEq, Repr

/-- `thread_close_loop` (lines 299-321): if there is no output handle, return
at once; otherwise force-stop the output unless it already signalled its own
stop, release the output handle, close the video sink (nulling it), and null
the output handle.  The second component records whether
`obs_output_force_stop` was invoked. -/
def thread_close_loop (s : CloseState) : CloseState × Bool :=
  if s.output = none then (s, false)
  else (⟨none, none, s.output_stopped⟩, !s.output_stopped)

/-- C9 counterexample: from a state with no output handle but a live video
sink, `thread_close_loop` returns immediately and the sink handle is NOT null
afterwards — contradicting the claim that after teardown completes both the
output handle and the video sink handle are null. -/
theorem c9_counterexample :
    ¬ ((thread_close_loop ⟨none, some (), false⟩).1.video_output = none) := by
  decide

/-- C9 (amended): teardown with a null output handle changes nothing and
force-stops nothing; running teardown twice in a row equals running it once;
and whenever the output handle is present at entry, afterwards both the output
handle and the video sink handle are null, with the output force-stopped
exactly when it had not already signalled its own stop. -/
theorem c9_teardown_idempotent (s : CloseState) :
    (s.output = none → thread_close_loop s = (s, false))
    ∧ (thread_close_loop (thread_close_loop s).1).1 = (thread_close_loop s).1
    ∧ (s.output ≠ none →
        (thread_close_loop s).1.output = none
        ∧ (thread_close_loop s).1.video_output = none
        ∧ ((thread_close_loop s).2 = true ↔ s.output_stopped = false)) := by
  by_cases h : s.output = none <;>
    simp [thread_close_loop, h]

/-- Witness for `c9_teardown_idempotent`: a running session (output present,
sink present, no stop signalled) tears down to both handles null. -/
theorem c9_teardown_idempotent_witness :
    thread_close_loop ⟨none, none, false⟩ = (⟨none, none, false⟩, false)
    ∧ (thread_close_loop ⟨some (), some (), false⟩).1.output = none
    ∧ (thread_close_loop ⟨some (), some (), false⟩).1.video_output = none :=
  ⟨(c9_teardown_idempotent ⟨none, none, false⟩).1 rfl,
   ((c9_teardown_idempotent ⟨some (), some (), false⟩).2.2 (by decide)).1,
   ((c9_teardown_idempotent ⟨some (), some (), false⟩).2.2 (by decide)).2.1⟩

/-! ## Frame delivery (`async_record_video`) -/

/-- An incoming `obs_source_frame` as seen by `async_record_video`: geometry
and timestamp (`obs_source_frame_copy` also copies the timestamp into the
freshly created copy, so the copy's timestamp equals the original's before the
overwrite check). -/
structure SrcFrame where
  width : Nat
  height : Nat
  timestamp : Nat
deriving DecidableEq, Repr

/-- The fields of `struct async_record` read and written by
`async_record_video`. -/
structure DeliverState where
  record : Bool
  overwrite_timestamp : Bool
  video_frames : List SrcFrame
deriving DecidableEq, Repr

/-- `async_record_video` (lines 477-497): if recording and the frame has
positive geometry, copy the frame; if `overwrite_timestamp` is set OR the
copied timestamp is 0 (`!copied_frame->timestamp`), replace the timestamp
with `obs_get_video_frame_time()` (`host_time`); then enqueue the copy at the
back of the queue. -/
def async_record_video (s : DeliverState) (frame : SrcFrame) (host_time : Nat) :
    DeliverState :=
  if s.record = true ∧ 0 < frame.width ∧ 0 < frame.height then
    { s with video_frames := s.video_frames ++
        [{ frame with timestamp :=
            if s.overwrite_timestamp = true ∨ frame.timestamp = 0 then host_time
            else frame.timestamp }] }
  else s

/-- C10 (confirmed): while recording with positive geometry, a frame with
timestamp 0 is enqueued with the host video-frame clock time even when
`overwrite_timestamp` is disabled; a frame with nonzero timestamp keeps its
own timestamp unless `overwrite_timestamp` is enabled, in which case it too
gets the host clock time. -/
theorem c10_timestamp_overwrite (s : DeliverState) (frame : SrcFrame) (host_time : Nat)
    (hr : s.record = true) (hw : 0 < frame.width) (hh : 0 < frame.height) :
    (frame.timestamp = 0 →
      async_record_video s frame host_time
        = { s with video_frames := s.video_frames
            ++ [{ frame with timestamp := host_time }] })
    ∧ (frame.timestamp ≠ 0 → s.overwrite_timestamp = false →
      async_record_video s frame host_time
        = { s with video_frames := s.video_frames ++ [frame] })
    ∧ (s.overwrite_timestamp = true →
      async_record_video s frame host_time
        = { s with video_frames := s.video_frames
            ++ [{ frame with timestamp := host_time }] }) := by
  refine ⟨?_, ?_, ?_⟩
  · intro h0
    simp [async_record_video, hr, hw, hh, h0]
  · intro h0 how
    simp [async_record_video, hr, hw, hh, h0, how]
  · intro how
    simp [async_record_video, hr, hw, hh, how]

/-- Witness for `c10_timestamp_overwrite`: with `overwrite_timestamp` off, a
zero-timestamp frame is enqueued with the host time 99 while a frame with
timestamp 7 keeps it. -/
theorem c10_timestamp_overwrite_witness :
    async_record_video ⟨true, false, []⟩ ⟨2, 2, 0⟩ 99 = ⟨true, false, [⟨2, 2, 99⟩]⟩
    ∧ async_record_video ⟨true, false, []⟩ ⟨2, 2, 7⟩ 99 = ⟨true, false, [⟨2, 2, 7⟩]⟩ :=
  ⟨(c10_timestamp_overwrite ⟨true, false, []⟩ ⟨2, 2, 0⟩ 99 rfl (by decide) (by decide)).1 rfl,
   (c10_timestamp_overwrite ⟨true, false, []⟩ ⟨2, 2, 7⟩ 99 rfl (by decide) (by decide)).2.1
     (by decide) rfl⟩

end SourceRecordAsync
